import Mathlib

/-!
Verification of the todobot sheet-table locator and row-lifecycle manager.

The TypeScript source (src/src/index.ts and src/api/webhook.ts, two copies of
the same handler) is shallowly embedded here.  The Google spreadsheet is
modelled as a list of rows, each row a list of cell strings; row 1 is index 0
and column A is cell index 0, so column B is cell index 1, C is 2, D is 3.
Reads of a range `B<r1>:D<r2>` are modelled as the exact rectangle of cells
(the backend may omit trailing empty cells or rows from a response; the
source's `row.length` guards make both readings produce identical results,
since a missing cell reads as the empty string either way).
JavaScript string builtins are modelled on `String` / `List Char`:
`trim` by `jsTrim`, `toLowerCase` by `jsToLower`, `includes` by
list-infix testing, `split` by an explicit separator split, and `parseInt`
by an explicit decimal/hex prefix parser; all are kernel-computable.
-/

namespace TodoBot

/-- A spreadsheet: rows of cell strings.  Row `r` (1-based) is list index
`r - 1`; a missing row or cell reads as the empty string. -/
abbrev Sheet := List (List String)

/-- Read one cell: 1-based row `r`, 0-based column `c` (A = 0, B = 1, ...). -/
def cellAt (s : Sheet) (r c : Nat) : String :=
  (s.getD (r - 1) []).getD c ""

/-- A configured header search range, from `USERNAME_TO_SEARCH_RANGE`:
`{ start, end }` in the source; `end` is a keyword in Lean so it is named
`stop` here. -/
structure SearchRange where
  start : Nat
  stop : Nat
deriving DecidableEq

/-- The registry type: identity to search range. -/
abbrev Config := List (String × SearchRange)

/-- JavaScript object lookup `obj[key]` on a small literal record, modelled
as association-list lookup. -/
def lookupAssoc {α : Type} (l : List (String × α)) (k : String) : Option α :=
  (l.find? (fun p => p.1 == k)).map Prod.snd

def lookupRange (cfg : Config) (u : String) : Option SearchRange :=
  lookupAssoc cfg u

/-- `USERNAME_TO_SEARCH_RANGE` from the source. -/
def USERNAME_TO_SEARCH_RANGE : Config :=
  [("hesong07", ⟨1, 20⟩), ("boewu28", ⟨15, 35⟩)]

/-- `SHORTCUT_TO_USERNAME` from the source. -/
def SHORTCUT_TO_USERNAME : List (String × String) :=
  [("he", "hesong07"), ("aaron", "boewu28")]

/-- Boolean contiguous-sublist test (`pat` occurs inside `l`). -/
def listInfixOf (pat : List Char) : List Char → Bool
  | [] => pat.isPrefixOf []
  | c :: rest => pat.isPrefixOf (c :: rest) || listInfixOf pat rest

/-- JavaScript `s.includes(pat)` (substring containment). -/
def jsIncludes (s pat : String) : Bool :=
  listInfixOf pat.data s.data

/-- JavaScript `s.trim()`: strip whitespace from both ends.  (Lean's own
`String.trim` is defined by byte-position recursion that the kernel cannot
unfold, so the same function is modelled on the character list.) -/
def jsTrim (s : String) : String :=
  String.mk
    (((s.data.dropWhile Char.isWhitespace).reverse.dropWhile
        Char.isWhitespace).reverse)

/-- JavaScript `s.toLowerCase()` (ASCII, which covers every string this
program compares). -/
def jsToLower (s : String) : String :=
  String.mk (s.data.map Char.toLower)

/-- The three cells of columns B, C, D of row `r`, as one row of a range
read `B…:D…`. -/
def readRowBD (s : Sheet) (r : Nat) : List String :=
  [cellAt s r 1, cellAt s r 2, cellAt s r 3]

/-- The rows of a range read `B<a>:D<a+n-1>`. -/
def readRows (s : Sheet) (a : Nat) : Nat → List (List String)
  | 0 => []
  | n + 1 => readRowBD s a :: readRows s (a + 1) n

/-- Loop body test of `findHeaderRow`: `row.length < 3` skips the row,
otherwise columns B, C, D are trimmed, lowercased and tested for the
substrings "purpose", "goal", "status". -/
def rowIsHeader (row : List String) : Bool :=
  if row.length < 3 then false
  else
    jsIncludes (jsToLower (jsTrim (row.getD 0 ""))) "purpose" &&
    jsIncludes (jsToLower (jsTrim (row.getD 1 ""))) "goal" &&
    jsIncludes (jsToLower (jsTrim (row.getD 2 ""))) "status"

/-- The scan loop of `findHeaderRow`: first index whose row is a header. -/
def findHeaderIdxAux : Nat → List (List String) → Option Nat
  | _, [] => none
  | i, row :: rest =>
    if rowIsHeader row then some i else findHeaderIdxAux (i + 1) rest

def findHeaderIdx (values : List (List String)) : Option Nat :=
  findHeaderIdxAux 0 values

/-- The `Unknown username` error text of `findHeaderRow`. -/
def unknownUserMsg (cfg : Config) (username : String) : String :=
  "Unknown username: @" ++ username ++ ". Supported usernames: " ++
    String.intercalate ", " (cfg.map (fun p => "@" ++ p.1))

/-- The `Could not find header row` error text of `findHeaderRow`. -/
def headerNotFoundMsg (username : String) (sr : SearchRange) : String :=
  "Could not find header row (Purpose/Goal/Status) for @" ++ username ++
    " in range " ++ toString sr.start ++ "-" ++ toString sr.stop

/-- `findHeaderRow`: look the user up in the registry, read columns B..D over
the configured search range, and return `searchRange.start + i` for the first
matching row index `i`, or a table-location error. -/
def findHeaderRow (cfg : Config) (s : Sheet) (username : String) :
    Except String Nat :=
  match lookupRange cfg username with
  | none => .error (unknownUserMsg cfg username)
  | some sr =>
    let values := readRows s sr.start (sr.stop + 1 - sr.start)
    match findHeaderIdx values with
    | some i => .ok (sr.start + i)
    | none => .error (headerNotFoundMsg username sr)

/-- Claim-side characterisation of a header row, directly on sheet cells:
columns B, C, D of row `r`, trimmed and lowercased, contain the substrings
"purpose", "goal", "status" respectively. -/
def headerCellsMatch (s : Sheet) (r : Nat) : Bool :=
  jsIncludes (jsToLower (jsTrim (cellAt s r 1))) "purpose" &&
  jsIncludes (jsToLower (jsTrim (cellAt s r 2))) "goal" &&
  jsIncludes (jsToLower (jsTrim (cellAt s r 3))) "status"

/-- The accumulator loop of `getTableEndRow`.  `next` is the JavaScript
`nextTableHeaderRow : number | null`; the source tests it with
`!nextTableHeaderRow`, which is also true for the number `0`, so the zero
case is modelled explicitly. -/
def getTableEndRowAux (cfg : Config) (s : Sheet) (headerRow : Nat) :
    List String → Option Nat → Option Nat
  | [], next => next
  | otherUser :: rest, next =>
    let next' :=
      match findHeaderRow cfg s otherUser with
      | .error _ => next
      | .ok otherHeaderRow =>
        if headerRow < otherHeaderRow then
          match next with
          | none => some otherHeaderRow
          | some n =>
            if n = 0 then some otherHeaderRow
            else if otherHeaderRow < n then some otherHeaderRow
            else some n
        else next
    getTableEndRowAux cfg s headerRow rest next'

/-- `getTableEndRow`: the least other identity's header row strictly below
this one, minus 2; or `headerRow + 200` when there is none.  The result is an
`Int` because the source computes `nextTableHeaderRow - 2` in JavaScript
arithmetic. -/
def getTableEndRow (cfg : Config) (s : Sheet) (username : String)
    (headerRow : Nat) : Int :=
  let otherUsers := (cfg.map Prod.fst).filter (fun x => x != username)
  match getTableEndRowAux cfg s headerRow otherUsers none with
  | none => (headerRow : Int) + 200
  | some n => if n = 0 then (headerRow : Int) + 200 else (n : Int) - 2

/-- One pending task as returned by `getTodosWithRowNumbers`. -/
structure TodoItem where
  purpose : String
  goal : String
  rowNumber : Nat
deriving DecidableEq

/-- The filter loop of `getTodosWithRowNumbers`: skip empty rows, skip rows
with a blank purpose, skip rows whose status (trimmed, lowercased) is exactly
"done", and record `startRow + i` as the absolute row number. -/
def collectTodosAux (startRow : Nat) : Nat → List (List String) → List TodoItem
  | _, [] => []
  | i, row :: rest =>
    if row.length = 0 then collectTodosAux startRow (i + 1) rest
    else
      let purpose := jsTrim (row.getD 0 "")
      let goal := jsTrim (row.getD 1 "")
      let status := jsToLower (jsTrim (row.getD 2 ""))
      if purpose = "" then collectTodosAux startRow (i + 1) rest
      else if status = "done" then collectTodosAux startRow (i + 1) rest
      else ⟨purpose, goal, startRow + i⟩ :: collectTodosAux startRow (i + 1) rest

/-- `getTodosWithRowNumbers`: locate the header, compute the end row, read
`B<headerRow+1>:D<endRow>` and filter. -/
def getTodosWithRowNumbers (cfg : Config) (s : Sheet) (username : String) :
    Except String (List TodoItem) :=
  match findHeaderRow cfg s username with
  | .error e => .error e
  | .ok headerRow =>
    let endRow : Int := getTableEndRow cfg s username headerRow
    let startRow := headerRow + 1
    let values := readRows s startRow ((endRow + 1 - (startRow : Int)).toNat)
    .ok (collectTodosAux startRow 0 values)

/-- Claim-side: row `r` is listed when its purpose cell is non-blank after
trimming and its status cell, trimmed and lowercased, is not exactly
"done". -/
def pendingRow (s : Sheet) (r : Nat) : Bool :=
  (jsTrim (cellAt s r 1) != "") && (jsToLower (jsTrim (cellAt s r 3)) != "done")

/-- Claim-side list of the pending rows `a, a+1, …, a+n-1` in sheet order,
carrying their absolute row numbers. -/
def specTodos (s : Sheet) : Nat → Nat → List TodoItem
  | _, 0 => []
  | a, n + 1 =>
    (if pendingRow s a then
       [⟨jsTrim (cellAt s a 1), jsTrim (cellAt s a 2), a⟩]
     else []) ++ specTodos s (a + 1) n

/-- Claim-side for `getTableEndRow`: the header rows of the other identities
whose header search succeeds and lies strictly below `headerRow`. -/
def nextHeaderCandidates (cfg : Config) (s : Sheet) (headerRow : Nat)
    (otherUsers : List String) : List Nat :=
  otherUsers.filterMap (fun o =>
    match findHeaderRow cfg s o with
    | .ok h2 => if headerRow < h2 then some h2 else none
    | .error _ => none)

/-- Minimum of a list of naturals, `none` when empty. -/
def natListMin (l : List Nat) : Option Nat :=
  l.foldr (fun a m =>
    match m with
    | none => some a
    | some b => some (Nat.min a b)) none

/-- Minimum of two optional naturals, `none` acting as the identity. -/
def optMinN : Option Nat → Option Nat → Option Nat
  | none, b => b
  | some a, none => some a
  | some a, some b => some (Nat.min a b)

/-- JavaScript `text.split(sep)` on `List Char`. -/
def splitSep (sep : Char) : List Char → List (List Char)
  | [] => [[]]
  | c :: cs =>
    let r := splitSep sep cs
    if c == sep then [] :: r
    else (c :: r.headD []) :: r.tail

/-- JavaScript `text.split(sep)` on `String`. -/
def jsSplit (sep : Char) (text : String) : List String :=
  (splitSep sep text.data).map (fun l => String.mk l)

/-- The comma parser of `addTodoToTable` (src/src/index.ts lines 189-198):
without a comma the purpose is the whole text trimmed and the goal empty;
with a comma, split on all commas, trim each part, take the first part as
purpose and rejoin the rest with commas, trimmed, as goal. -/
def parseTodoText (text : String) : String × String :=
  if text.data.contains ',' then
    let parts := (jsSplit ',' text).map jsTrim
    (parts.getD 0 "", jsTrim (String.intercalate "," (parts.drop 1)))
  else (jsTrim text, "")

/-- The duplicated comma parser inside `handleTodoCommand` (src/src/index.ts
lines 357-364), used only to build the confirmation reply. -/
def parseTodoTextReply (text : String) : String × String :=
  if text.data.contains ',' then
    let parts := (jsSplit ',' text).map jsTrim
    (parts.getD 0 "", jsTrim (String.intercalate "," (parts.drop 1)))
  else (jsTrim text, "")

/-- `insertDimension` with `startIndex = idx`, `endIndex = idx + 1`: insert
one blank row at 0-based position `idx`, shifting later rows down. -/
def insertRowAt (s : Sheet) (idx : Nat) : Sheet :=
  s.take idx ++ [[]] ++ s.drop idx

/-- `values.update` of a single cell (1-based row `r`, 0-based column `c`),
extending the grid with empty cells as the backend does when the target lies
outside the current data region. -/
def setCell (s : Sheet) (r c : Nat) (v : String) : Sheet :=
  let s' := if s.length < r then s ++ List.replicate (r - s.length) [] else s
  let row := s'.getD (r - 1) []
  let row' :=
    (if row.length < c + 1 then row ++ List.replicate (c + 1 - row.length) ""
     else row).set c v
  s'.set (r - 1) row'

/-- `addTodoToTable`: locate the header row, insert one blank row right below
it, and write purpose and goal into columns B and C of the new row. -/
def addTodoToTable (cfg : Config) (s : Sheet) (username text : String) :
    Except String Sheet :=
  match findHeaderRow cfg s username with
  | .error e => .error e
  | .ok headerRow =>
    let insertRow := headerRow + 1
    let pg := parseTodoText text
    let s1 := insertRowAt s (insertRow - 1)
    let s2 := setCell s1 insertRow 1 pg.1
    let s3 := setCell s2 insertRow 2 pg.2
    .ok s3

/-- `markTaskAsDone`: overwrite the status cell (column D) of the given row
with the literal "done". -/
def markTaskAsDone (s : Sheet) (rowNumber : Nat) : Sheet :=
  setCell s rowNumber 3 "done"

/-- Value of a JavaScript `parseInt` digit, radix up to 16; `99` marks a
non-digit. -/
def digitValue (c : Char) : Nat :=
  match c with
  | '0' => 0 | '1' => 1 | '2' => 2 | '3' => 3 | '4' => 4
  | '5' => 5 | '6' => 6 | '7' => 7 | '8' => 8 | '9' => 9
  | 'a' => 10 | 'b' => 11 | 'c' => 12 | 'd' => 13 | 'e' => 14 | 'f' => 15
  | 'A' => 10 | 'B' => 11 | 'C' => 12 | 'D' => 13 | 'E' => 14 | 'F' => 15
  | _ => 99

/-- Longest digit prefix in the given radix; `none` when there is none
(JavaScript `NaN`). -/
def parseDigits (radix : Nat) (cs : List Char) : Option Nat :=
  let digits := cs.takeWhile (fun c => digitValue c < radix)
  if digits.isEmpty then none
  else some (digits.foldl (fun a c => radix * a + digitValue c) 0)

/-- `parseInt` after sign handling: a `0x`/`0X` prefix selects radix 16,
otherwise radix 10. -/
def parseUnsigned (cs : List Char) : Option Nat :=
  match cs with
  | c1 :: c2 :: rest =>
    if c1 == '0' && (c2 == 'x' || c2 == 'X') then parseDigits 16 rest
    else parseDigits 10 (c1 :: c2 :: rest)
  | _ => parseDigits 10 cs

/-- Sign handling of `parseInt`, after whitespace has been skipped. -/
def parseIntSigned : List Char → Option Int
  | [] => none
  | c :: rest =>
    if c == '-' then (parseUnsigned rest).map (fun v => -(v : Int))
    else if c == '+' then (parseUnsigned rest).map (fun v => (v : Int))
    else (parseUnsigned (c :: rest)).map (fun v => (v : Int))

/-- JavaScript `parseInt(s)` (no explicit radix): skip leading whitespace,
an optional sign, then the longest digit prefix; `none` models `NaN`. -/
def parseIntList (cs : List Char) : Option Int :=
  parseIntSigned (cs.dropWhile Char.isWhitespace)

def jsParseInt (s : String) : Option Int :=
  parseIntList s.data

/-- The decimal digit characters. -/
def digitChar (d : Nat) : Char :=
  match d with
  | 0 => '0' | 1 => '1' | 2 => '2' | 3 => '3' | 4 => '4'
  | 5 => '5' | 6 => '6' | 7 => '7' | 8 => '8' | 9 => '9'
  | _ => '*'

/-- Fuel-driven decimal printer (fuel `n + 1` always suffices for `n`). -/
def toDecAux : Nat → Nat → List Char → List Char
  | 0, _, acc => acc
  | fuel + 1, n, acc =>
    if n < 10 then digitChar n :: acc
    else toDecAux fuel (n / 10) (digitChar (n % 10) :: acc)

/-- JavaScript number-to-string for a nonnegative integer, as used by the
template literal in the callback-data encoder. -/
def natToDecimal (n : Nat) : String :=
  String.mk (toDecAux (n + 1) n [])

/-- The two decoded shapes of a `mark_done` callback payload. -/
inductive CallbackAction where
  | showList (username : String)
  | markDone (username : String) (rowNumber : Int)
deriving DecidableEq

/-- Encoder of the numbered task buttons:
`` `mark_done:${username}:${todo.rowNumber}` ``. -/
def encodeMarkDone (username : String) (rowNumber : Nat) : String :=
  "mark_done:" ++ username ++ ":" ++ natToDecimal rowNumber

/-- Encoder of the `Mark as done` button:
`` `mark_done:${username}:show_list` ``. -/
def encodeShowList (username : String) : String :=
  "mark_done:" ++ username ++ ":show_list"

/-- The callback-query decoder: require the `mark_done:` prefix, split on
`:`, then the `show_list` branch, then the numeric branch guarded by
`!isNaN(parseInt(parts[2]))`; everything else falls through silently
(`none`: no sheet write, no reply). -/
def decodeCallback (data : String) : Option CallbackAction :=
  if "mark_done:".data.isPrefixOf data.data then
    let parts := jsSplit ':' data
    if parts.length = 3 ∧ parts.getD 2 "" = "show_list" then
      some (.showList (parts.getD 1 ""))
    else if parts.length = 3 ∧ (jsParseInt (parts.getD 2 "")).isSome then
      some (.markDone (parts.getD 1 "") ((jsParseInt (parts.getD 2 "")).getD 0))
    else none
  else none

/-- The explicit-token identity resolution shared by `/done` and `/list`:
lowercase the token, try the shortcut (alias) table, then the identity
registry, else fail with the enumerated supported identities. -/
def resolveToken (token : String) : Except String String :=
  let inputUsername := jsToLower token
  match lookupAssoc SHORTCUT_TO_USERNAME inputUsername with
  | some target => .ok target
  | none =>
    if (lookupRange USERNAME_TO_SEARCH_RANGE inputUsername).isSome then
      .ok inputUsername
    else
      .error ("❌ Unknown username: @" ++ inputUsername ++
        "\nSupported: @hesong07, @boewu28, or shortcuts: he, aaron")

/-- The self-assign resolution of `/do me …` (and the no-argument `/done`,
`/list`): the caller's chat handle is looked up in the registry exactly,
case-sensitively. -/
def resolveSelf (telegramUsername : String) : Option String :=
  if (lookupRange USERNAME_TO_SEARCH_RANGE telegramUsername).isSome then
    some telegramUsername
  else none

/-! Concrete sheets used to instantiate the theorems below. -/

/-- A header row as it appears in the spreadsheet (column A unused). -/
def hdrRow : List String := ["", "Purpose", "Goal", "Status"]

/-- Rows 1-7 blank, header in row 8 (inside hesong07's search range 1-20). -/
def demoSheet1 : Sheet := List.replicate 7 [] ++ [hdrRow]

/-- hesong07's header in row 1 with a mix of pending, done and blank data
rows below it, and boewu28's header in row 15. -/
def demoSheet2 : Sheet :=
  [hdrRow,
   ["", "write spec", "ship", ""],
   ["", "old task", "", "Done"],
   [],
   ["", "  ", "x", ""],
   ["", "third", "", "pending"]] ++ List.replicate 8 [] ++ [hdrRow]

/-- hesong07's header in row 14 and boewu28's header directly below it in
row 15: the configuration that defeats the insertion-ordering claim. -/
def cxSheet : Sheet := List.replicate 13 [] ++ [hdrRow, hdrRow]

/-- `cxSheet` after inserting "taskA" for hesong07. -/
def cxS1 : Sheet :=
  List.replicate 13 [] ++ [hdrRow, ["", "taskA", ""], hdrRow]

/-- `cxS1` after inserting "taskB" for hesong07. -/
def cxS2 : Sheet :=
  List.replicate 13 [] ++ [hdrRow, ["", "taskB", ""], ["", "taskA", ""], hdrRow]

/-- hesong07's header in row 1 over one seed data row; boewu28 has no
header anywhere. -/
def c5demo : Sheet := [hdrRow, ["", "seed", "", ""]]

/-- `c5demo` after inserting "taskA" for hesong07. -/
def c5s1 : Sheet := [hdrRow, ["", "taskA", ""], ["", "seed", "", ""]]

/-- `c5s1` after inserting "taskB" for hesong07. -/
def c5s2 : Sheet :=
  [hdrRow, ["", "taskB", ""], ["", "taskA", ""], ["", "seed", "", ""]]

/-! Header-search lemmas. -/

theorem cellAt_of_no_row (s : Sheet) (r c : Nat) (h : s.length ≤ r - 1) :
    cellAt s r c = "" := by
  unfold cellAt
  rw [List.getD_eq_default _ _ h]
  simp [List.getD]

theorem rowIsHeader_readRowBD (s : Sheet) (r : Nat) :
    rowIsHeader (readRowBD s r) = headerCellsMatch s r := by
  rfl

theorem headerCellsMatch_le_length (s : Sheet) (h : Nat)
    (hm : headerCellsMatch s h = true) : h ≤ s.length := by
  by_contra hlen
  have h3 : cellAt s h 3 = "" := cellAt_of_no_row s h 3 (by omega)
  simp only [headerCellsMatch, Bool.and_eq_true] at hm
  rw [h3] at hm
  exact absurd hm.2 (by decide)

theorem scan_none (s : Sheet) : ∀ (n a i : Nat),
    (∀ j, j < n → headerCellsMatch s (a + j) = false) →
    findHeaderIdxAux i (readRows s a n) = none := by
  intro n
  induction n with
  | zero => intro a i _; rfl
  | succ n ih =>
    intro a i h
    show findHeaderIdxAux i (readRowBD s a :: readRows s (a + 1) n) = none
    rw [findHeaderIdxAux, rowIsHeader_readRowBD]
    have h0 := h 0 (by omega)
    rw [Nat.add_zero] at h0
    rw [h0]
    simp only [Bool.false_eq_true, if_false]
    exact ih (a + 1) (i + 1) (fun j hj => by
      have := h (j + 1) (by omega)
      rwa [Nat.add_comm j 1, ← Nat.add_assoc] at this)

theorem scan_some (s : Sheet) : ∀ (n a i k : Nat), k < n →
    headerCellsMatch s (a + k) = true →
    (∀ j, j < k → headerCellsMatch s (a + j) = false) →
    findHeaderIdxAux i (readRows s a n) = some (i + k) := by
  intro n
  induction n with
  | zero => intro a i k hk; omega
  | succ n ih =>
    intro a i k hk hm hmin
    show findHeaderIdxAux i (readRowBD s a :: readRows s (a + 1) n) = some (i + k)
    rw [findHeaderIdxAux, rowIsHeader_readRowBD]
    match k, hk with
    | 0, _ =>
      rw [Nat.add_zero] at hm
      rw [hm]
      simp
    | k' + 1, hk =>
      have h0 := hmin 0 (by omega)
      rw [Nat.add_zero] at h0
      rw [h0]
      simp only [Bool.false_eq_true, if_false]
      have := ih (a + 1) (i + 1) k' (by omega)
        (by rwa [show a + (k' + 1) = a + 1 + k' by omega] at hm)
        (fun j hj => by
          have := hmin (j + 1) (by omega)
          rwa [show a + (j + 1) = a + 1 + j by omega] at this)
      rw [this]
      congr 1
      omega

theorem scan_inv (s : Sheet) : ∀ (n a i r : Nat),
    findHeaderIdxAux i (readRows s a n) = some r →
    ∃ k, r = i + k ∧ k < n ∧ headerCellsMatch s (a + k) = true ∧
      ∀ j, j < k → headerCellsMatch s (a + j) = false := by
  intro n
  induction n with
  | zero => intro a i r h; exact absurd h (by simp [readRows, findHeaderIdxAux])
  | succ n ih =>
    intro a i r h
    rw [show readRows s a (n + 1) = readRowBD s a :: readRows s (a + 1) n from rfl,
      findHeaderIdxAux, rowIsHeader_readRowBD] at h
    by_cases h0 : headerCellsMatch s a = true
    · rw [h0, if_pos rfl] at h
      have hr : r = i := by injection h with h; omega
      exact ⟨0, by omega, by omega, by rwa [Nat.add_zero], by omega⟩
    · rw [Bool.not_eq_true] at h0
      rw [h0] at h
      simp only [Bool.false_eq_true, if_false] at h
      obtain ⟨k, hr, hk, hm, hmin⟩ := ih (a + 1) (i + 1) r h
      refine ⟨k + 1, by omega, by omega,
        by rwa [show a + 1 + k = a + (k + 1) by omega] at hm, ?_⟩
      intro j hj
      match j, hj with
      | 0, _ => rwa [Nat.add_zero]
      | j' + 1, hj =>
        have := hmin j' (by omega)
        rwa [show a + 1 + j' = a + (j' + 1) by omega] at this

theorem findHeaderRow_ok (cfg : Config) (s : Sheet) (u : String)
    (sr : SearchRange) (hlk : lookupRange cfg u = some sr)
    (k : Nat) (hk : k < sr.stop + 1 - sr.start)
    (hm : headerCellsMatch s (sr.start + k) = true)
    (hmin : ∀ j, j < k → headerCellsMatch s (sr.start + j) = false) :
    findHeaderRow cfg s u = .ok (sr.start + k) := by
  unfold findHeaderRow
  rw [hlk]
  have := scan_some s (sr.stop + 1 - sr.start) sr.start 0 k hk hm hmin
  simp only [findHeaderIdx, this, Nat.zero_add]

theorem findHeaderRow_err (cfg : Config) (s : Sheet) (u : String)
    (sr : SearchRange) (hlk : lookupRange cfg u = some sr)
    (hall : ∀ j, j < sr.stop + 1 - sr.start →
      headerCellsMatch s (sr.start + j) = false) :
    findHeaderRow cfg s u = .error (headerNotFoundMsg u sr) := by
  unfold findHeaderRow
  rw [hlk]
  have := scan_none s (sr.stop + 1 - sr.start) sr.start 0 hall
  simp only [findHeaderIdx, this]

theorem findHeaderRow_ok_inv (cfg : Config) (s : Sheet) (u : String)
    (sr : SearchRange) (h : Nat) (hlk : lookupRange cfg u = some sr)
    (hok : findHeaderRow cfg s u = .ok h) :
    sr.start ≤ h ∧ h ≤ sr.stop ∧ headerCellsMatch s h = true ∧
      ∀ r, sr.start ≤ r → r < h → headerCellsMatch s r = false := by
  unfold findHeaderRow at hok
  rw [hlk] at hok
  simp only [findHeaderIdx] at hok
  rcases hidx : findHeaderIdxAux 0 (readRows s sr.start (sr.stop + 1 - sr.start))
    with _ | i
  · rw [hidx] at hok; exact absurd hok (by simp)
  · rw [hidx] at hok
    have hi : sr.start + i = h := Except.ok.inj hok
    obtain ⟨k, hk0, hkn, hm, hmin⟩ :=
      scan_inv s (sr.stop + 1 - sr.start) sr.start 0 i hidx
    have hik : i = k := by omega
    subst hik
    refine ⟨by omega, by omega, by rwa [hi] at hm, ?_⟩
    intro r hr1 hr2
    have := hmin (r - sr.start) (by omega)
    rwa [show sr.start + (r - sr.start) = r by omega] at this

/-- C1. For every registered identity with configured search range
`[start, end]` and every sheet state, `findHeaderRow` returns `start + i`
where `i` is the index of the first row in the read range whose three cells
(columns B, C, D), trimmed and lowercased, contain the substrings "purpose",
"goal", "status" respectively (substring match); if no row in the range
matches, it fails with a table-location error naming the searched bounds. -/
theorem findHeaderRow_spec (cfg : Config) (s : Sheet) (u : String)
    (sr : SearchRange) (hlk : lookupRange cfg u = some sr) :
    ((∀ j, j < sr.stop + 1 - sr.start →
        headerCellsMatch s (sr.start + j) = false) →
      findHeaderRow cfg s u = .error (headerNotFoundMsg u sr)) ∧
    (∀ i, i < sr.stop + 1 - sr.start →
      headerCellsMatch s (sr.start + i) = true →
      (∀ j, j < i → headerCellsMatch s (sr.start + j) = false) →
      findHeaderRow cfg s u = .ok (sr.start + i)) :=
  ⟨findHeaderRow_err cfg s u sr hlk,
   fun i hi hm hmin => findHeaderRow_ok cfg s u sr hlk i hi hm hmin⟩

/-- C1 witness: in the deployed registry, hesong07's range is `[1, 20]`;
on a sheet whose row 8 holds `Purpose § Goal § Status` in columns B, C, D,
`findHeaderRow` returns `1 + 7 = 8`. -/
theorem findHeaderRow_spec_witness :
    findHeaderRow USERNAME_TO_SEARCH_RANGE demoSheet1 "hesong07" = .ok 8 :=
  (findHeaderRow_spec USERNAME_TO_SEARCH_RANGE demoSheet1 "hesong07"
      ⟨1, 20⟩ (by decide)).2 7 (by decide) (by decide)
    (by decide)

/-! End-row computation lemmas. -/

theorem optMinN_none_right (x : Option Nat) : optMinN x none = x := by
  cases x <;> rfl

theorem optMinN_assoc (x y z : Option Nat) :
    optMinN (optMinN x y) z = optMinN x (optMinN y z) := by
  cases x <;> cases y <;> cases z <;> simp [optMinN, Nat.min_assoc]

theorem natListMin_cons (a : Nat) (l : List Nat) :
    natListMin (a :: l) = optMinN (some a) (natListMin l) := by
  show (match natListMin l with
        | none => some a
        | some b => some (Nat.min a b)) = optMinN (some a) (natListMin l)
  cases h : natListMin l <;> rfl

theorem natListMin_pos (l : List Nat) (hl : ∀ x ∈ l, 0 < x) :
    ∀ n, natListMin l = some n → 0 < n := by
  induction l with
  | nil => intro n hn; exact absurd hn (by simp [natListMin])
  | cons a t ih =>
    intro n hn
    rw [natListMin_cons] at hn
    cases ht : natListMin t with
    | none =>
      rw [ht] at hn
      have : a = n := by simpa [optMinN] using hn
      exact this ▸ hl a (by simp)
    | some b =>
      rw [ht] at hn
      have hab : Nat.min a b = n := by simpa [optMinN] using hn
      have ha := hl a (by simp)
      have hb := ih (fun x hx => hl x (by simp [hx])) b ht
      have h1 : 1 ≤ Nat.min a b := Nat.le_min.mpr ⟨ha, hb⟩
      omega

theorem nextHeaderCandidates_gt (cfg : Config) (s : Sheet) (h : Nat)
    (l : List String) : ∀ x ∈ nextHeaderCandidates cfg s h l, h < x := by
  intro x hx
  unfold nextHeaderCandidates at hx
  obtain ⟨o, _, ho⟩ := List.mem_filterMap.mp hx
  rcases hfr : findHeaderRow cfg s o with e | h2
  · simp [hfr] at ho
  · simp only [hfr] at ho
    by_cases hgt : h < h2
    · rw [if_pos hgt] at ho
      obtain rfl : h2 = x := Option.some.inj ho
      exact hgt
    · rw [if_neg hgt] at ho
      exact absurd ho (by simp)

theorem getTableEndRowAux_min (cfg : Config) (s : Sheet) (h : Nat) :
    ∀ (l : List String) (next : Option Nat),
      (∀ n, next = some n → 0 < n) →
      getTableEndRowAux cfg s h l next =
        optMinN next (natListMin (nextHeaderCandidates cfg s h l)) := by
  intro l
  induction l with
  | nil =>
    intro next _
    simp [getTableEndRowAux, nextHeaderCandidates, natListMin, optMinN_none_right]
  | cons o rest ih =>
    intro next hpos
    rw [getTableEndRowAux]
    rcases hfr : findHeaderRow cfg s o with e | oh
    · simp only [hfr]
      rw [ih next hpos]
      congr 1
      simp [nextHeaderCandidates, hfr]
    · simp only [hfr]
      by_cases hgt : h < oh
      · rw [if_pos hgt]
        have hcands : nextHeaderCandidates cfg s h (o :: rest) =
            oh :: nextHeaderCandidates cfg s h rest := by
          simp [nextHeaderCandidates, hfr, hgt]
        cases next with
        | none =>
          rw [ih (some oh) (fun n hn => by cases hn; omega)]
          rw [hcands, natListMin_cons]
          rfl
        | some n =>
          have hn : 0 < n := hpos n rfl
          show getTableEndRowAux cfg s h rest
              (if n = 0 then some oh else if oh < n then some oh else some n) =
            optMinN (some n)
              (natListMin (nextHeaderCandidates cfg s h (o :: rest)))
          rw [if_neg (by omega)]
          have hsel : (if oh < n then some oh else some n) =
              optMinN (some n) (some oh) := by
            by_cases hc : oh < n
            · rw [if_pos hc]
              show some oh = some (if n ≤ oh then n else oh)
              rw [if_neg (by omega)]
            · rw [if_neg hc]
              show some n = some (if n ≤ oh then n else oh)
              rw [if_pos (by omega)]
          rw [hsel, ih (optMinN (some n) (some oh))
            (fun m hm => by
              simp only [optMinN] at hm
              have hme : Nat.min n oh = m := Option.some.inj hm
              have h1 : 1 ≤ Nat.min n oh := Nat.le_min.mpr ⟨hn, by omega⟩
              omega)]
          rw [hcands, natListMin_cons, ← optMinN_assoc]
      · rw [if_neg hgt]
        rw [ih next hpos]
        congr 1
        simp [nextHeaderCandidates, hfr, hgt]

/-- C3. For every identity `u` with located header row `h`,
`getTableEndRow u h` returns `m - 2` where `m` is the minimum header row
among all other registered identities whose header search succeeds and whose
header row is strictly greater than `h`; if no other identity yields such a
row (failed header searches being discarded), it returns `h + 200`. -/
theorem getTableEndRow_spec (cfg : Config) (s : Sheet) (u : String)
    (h : Nat) :
    getTableEndRow cfg s u h =
      match natListMin (nextHeaderCandidates cfg s h
          ((cfg.map Prod.fst).filter (fun x => x != u))) with
      | none => (h : Int) + 200
      | some m => (m : Int) - 2 := by
  have haux := getTableEndRowAux_min cfg s h
    ((cfg.map Prod.fst).filter (fun x => x != u)) none (by intro n hn; cases hn)
  rw [show optMinN none (natListMin (nextHeaderCandidates cfg s h
      ((cfg.map Prod.fst).filter (fun x => x != u)))) =
      natListMin (nextHeaderCandidates cfg s h
      ((cfg.map Prod.fst).filter (fun x => x != u))) from rfl] at haux
  simp only [getTableEndRow]
  rw [haux]
  cases hmin : natListMin (nextHeaderCandidates cfg s h
      ((cfg.map Prod.fst).filter (fun x => x != u))) with
  | none => rfl
  | some m =>
    have hm : 0 < m := natListMin_pos _
      (fun x hx => Nat.lt_of_le_of_lt (Nat.zero_le h)
        (nextHeaderCandidates_gt cfg s h _ x hx)) m hmin
    show (if m = 0 then ((h : Int) + 200) else ((m : Int) - 2)) = (m : Int) - 2
    rw [if_neg (by omega : ¬m = 0)]

/-! Listing lemmas. -/

theorem collect_spec (s : Sheet) : ∀ (n a i : Nat),
    collectTodosAux a i (readRows s (a + i) n) = specTodos s (a + i) n := by
  intro n
  induction n with
  | zero => intro a i; rfl
  | succ n ih =>
    intro a i
    show collectTodosAux a i (readRowBD s (a + i) :: readRows s (a + i + 1) n)
      = specTodos s (a + i) (n + 1)
    have hrec : collectTodosAux a (i + 1) (readRows s (a + i + 1) n) =
        specTodos s (a + i + 1) n := by
      have := ih a (i + 1)
      rwa [show a + (i + 1) = a + i + 1 by omega] at this
    by_cases hp : jsTrim (cellAt s (a + i) 1) = ""
    · have hpend : pendingRow s (a + i) = false := by
        simp [pendingRow, hp]
      simp [collectTodosAux, readRowBD, specTodos, hp, hpend, hrec]
    · by_cases hs : jsToLower (jsTrim (cellAt s (a + i) 3)) = "done"
      · have hpend : pendingRow s (a + i) = false := by
          simp [pendingRow, hs]
        simp [collectTodosAux, readRowBD, specTodos, hp, hs, hpend, hrec]
      · have hpend : pendingRow s (a + i) = true := by
          simp [pendingRow, hp, hs]
        simp [collectTodosAux, readRowBD, specTodos, hp, hs, hpend, hrec]

/-- `getTodosWithRowNumbers` computed against the specification list. -/
theorem getTodos_eq (cfg : Config) (s : Sheet) (u : String) (h : Nat)
    (hh : findHeaderRow cfg s u = .ok h) :
    getTodosWithRowNumbers cfg s u =
      .ok (specTodos s (h + 1)
        ((getTableEndRow cfg s u h + 1 - ((h + 1 : Nat) : Int)).toNat)) := by
  unfold getTodosWithRowNumbers
  rw [hh]
  show Except.ok (collectTodosAux (h + 1) 0 (readRows s (h + 1)
      ((getTableEndRow cfg s u h + 1 - ((h + 1 : Nat) : Int)).toNat))) = _
  have := collect_spec s
    ((getTableEndRow cfg s u h + 1 - ((h + 1 : Nat) : Int)).toNat) (h + 1) 0
  rw [Nat.add_zero] at this
  rw [this]

/-- C2. For every identity and sheet state with a located header row `h`,
`getTodosWithRowNumbers` succeeds and returns exactly the rows of the data
range `[h + 1, endRow]` whose purpose cell (column B) is non-blank after
trimming and whose status cell (column D), trimmed and lowercased, is not
exactly "done"; each emitted item carries `rowNumber = h + 1 + i` for its
0-based index `i` in the read range, in sheet order top to bottom
(`specTodos` enumerates the range in order and keeps exactly the
`pendingRow` rows). -/
theorem getTodos_spec (cfg : Config) (s : Sheet) (u : String) (h : Nat)
    (hh : findHeaderRow cfg s u = .ok h) :
    getTodosWithRowNumbers cfg s u =
      .ok (specTodos s (h + 1)
        ((getTableEndRow cfg s u h + 1 - ((h + 1 : Nat) : Int)).toNat)) :=
  getTodos_eq cfg s u h hh

/-- C2 witness: on `demoSheet2` (header row 1, boewu28's header row 15 so
`endRow = 13`), the filtered listing matches the specification list. -/
theorem getTodos_spec_witness :
    getTodosWithRowNumbers USERNAME_TO_SEARCH_RANGE demoSheet2 "hesong07" =
      .ok (specTodos demoSheet2 (1 + 1)
        ((getTableEndRow USERNAME_TO_SEARCH_RANGE demoSheet2 "hesong07" 1 + 1 -
          ((1 + 1 : Nat) : Int)).toNat)) :=
  getTodos_spec USERNAME_TO_SEARCH_RANGE demoSheet2 "hesong07" 1 rfl

/-! Split / comma-parsing lemmas. -/

theorem splitSep_eq (sep : Char) : ∀ l : List Char,
    splitSep sep l = l.takeWhile (fun a => a != sep) ::
      (if l.contains sep then
        splitSep sep ((l.dropWhile (fun a => a != sep)).tail)
       else []) := by
  intro l
  induction l with
  | nil => rfl
  | cons c cs ih =>
    by_cases hc : c = sep
    · subst hc
      rw [splitSep]
      simp only [beq_self_eq_true, if_pos rfl, List.takeWhile_cons,
        bne_self_eq_false, Bool.false_eq_true, if_false, List.dropWhile_cons,
        List.contains_cons]
      simp
    · rw [splitSep]
      rw [ih]
      simp only [List.takeWhile_cons, List.dropWhile_cons, List.contains_cons]
      have h1 : (c == sep) = false := by simp [hc]
      have h2 : (c != sep) = true := by simp [hc]
      have h3 : (sep == c) = false := by
        simp only [beq_eq_false_iff_ne, ne_eq]
        exact fun h => hc h.symm
      rw [h1]
      simp only [Bool.false_eq_true, if_false, h2, if_pos rfl]
      rw [show ((sep == c || cs.contains sep) = (cs.contains sep)) by
        rw [h3]; simp]
      cases hcont : cs.contains sep <;> simp [List.headD, List.tail]

/-- C4 counterexample: for the payload `"a, b , c"` the code's goal is
`"b,c"` (each comma-separated part is trimmed before rejoining), which is not
the trimmed text after the first comma (`"b , c"`), so the claim's
description of the goal field fails as literally stated. -/
theorem parseTodoText_counterexample :
    (parseTodoText "a, b , c").2 = "b,c" ∧
    jsTrim (String.mk ((("a, b , c" : String).data.dropWhile
      (fun a => a != ',')).tail)) = "b , c" ∧
    (parseTodoText "a, b , c").2 ≠
      jsTrim (String.mk ((("a, b , c" : String).data.dropWhile
        (fun a => a != ',')).tail)) :=
  ⟨by decide, by decide, by decide⟩

/-- C4 (amended). For every payload text: if the text contains no comma, the
parsed purpose is the whole text trimmed and the goal is empty; if it
contains commas, the purpose is the text before the first comma, trimmed,
and the goal is obtained by splitting the text after the first comma on
commas, trimming each segment, rejoining them with commas and trimming.
In particular `"Buy milk, by Friday"` parses to `("Buy milk", "by Friday")`
and `"Buy milk"` parses to `("Buy milk", "")`. -/
theorem parseTodoText_spec (text : String) :
    (text.data.contains ',' = false → parseTodoText text = (jsTrim text, "")) ∧
    (text.data.contains ',' = true →
      parseTodoText text =
        (jsTrim (String.mk (text.data.takeWhile (fun a => a != ','))),
         jsTrim (String.intercalate ","
           ((splitSep ',' ((text.data.dropWhile (fun a => a != ',')).tail)).map
             (fun l => jsTrim (String.mk l)))))) ∧
    parseTodoText "Buy milk, by Friday" = ("Buy milk", "by Friday") ∧
    parseTodoText "Buy milk" = ("Buy milk", "") := by
  refine ⟨?_, ?_, by decide, by decide⟩
  · intro h
    unfold parseTodoText
    rw [h]
    simp
  · intro h
    have hsplit := splitSep_eq ',' text.data
    rw [h, if_pos rfl] at hsplit
    simp only [parseTodoText, jsSplit, h, if_pos rfl, if_true]
    rw [hsplit]
    simp [List.map_map, Function.comp_def]

/-- C4 witness: the amended comma case evaluated at `"x, y"`. -/
theorem parseTodoText_spec_witness :
    parseTodoText "x, y" =
      (jsTrim (String.mk (("x, y" : String).data.takeWhile (fun a => a != ','))),
       jsTrim (String.intercalate ","
         ((splitSep ',' ((("x, y" : String).data.dropWhile
             (fun a => a != ',')).tail)).map
           (fun l => jsTrim (String.mk l))))) :=
  (parseTodoText_spec "x, y").2.1 (by decide)

/-- C9. The comma parser duplicated inside `handleTodoCommand` (used for the
confirmation reply) is extensionally equal to the one inside
`addTodoToTable` (used for the cells written to the sheet), so the reply
always names exactly the purpose/goal pair that was written. -/
theorem parseTodoTextReply_eq_parseTodoText :
    ∀ text : String, parseTodoTextReply text = parseTodoText text :=
  fun _ => rfl

/-! Sheet-mutation lemmas: `setCell` and `insertRowAt` against `cellAt`. -/

theorem getD_set_eq {α : Type} (l : List α) (i : Nat) (a d : α)
    (h : i < l.length) : (l.set i a).getD i d = a := by
  rw [List.getD_eq_getElem?_getD, List.getElem?_set_self',
    List.getElem?_eq_getElem h]
  rfl

theorem getD_set_ne {α : Type} (l : List α) (i j : Nat) (a d : α)
    (h : i ≠ j) : (l.set i a).getD j d = l.getD j d := by
  rw [List.getD_eq_getElem?_getD, List.getElem?_set_ne h,
    ← List.getD_eq_getElem?_getD]

theorem getD_pad_right (row : List String) (k c : Nat) :
    (row ++ List.replicate k "").getD c "" = row.getD c "" := by
  by_cases h : c < row.length
  · rw [List.getD_eq_getElem?_getD, List.getElem?_append, if_pos h,
      ← List.getD_eq_getElem?_getD]
  · rw [show row.getD c "" = "" from List.getD_eq_default _ _ (by omega)]
    rw [List.getD_eq_getElem?_getD, List.getElem?_append, if_neg (by omega)]
    rw [List.getElem?_replicate]
    split <;> rfl

theorem getD_rows_pad (s : Sheet) (m i : Nat) :
    (s ++ List.replicate m []).getD i [] = s.getD i [] := by
  by_cases h : i < s.length
  · rw [List.getD_eq_getElem?_getD, List.getElem?_append, if_pos h,
      ← List.getD_eq_getElem?_getD]
  · rw [show s.getD i ([] : List String) = [] from
      List.getD_eq_default _ _ (by omega)]
    rw [List.getD_eq_getElem?_getD, List.getElem?_append, if_neg (by omega)]
    rw [List.getElem?_replicate]
    split <;> rfl

theorem rowsPad_cellAt (s : Sheet) (m r c : Nat) :
    cellAt (s ++ List.replicate m []) r c = cellAt s r c := by
  unfold cellAt
  rw [getD_rows_pad]

theorem setCell_cellAt (s : Sheet) (r c : Nat) (v : String) (r' c' : Nat)
    (hr : 1 ≤ r) (hr' : 1 ≤ r') :
    cellAt (setCell s r c v) r' c' =
      if r' = r ∧ c' = c then v else cellAt s r' c' := by
  unfold setCell
  set s' := if s.length < r then s ++ List.replicate (r - s.length) [] else s
    with hs'
  have hlen : r - 1 < s'.length := by
    rw [hs']
    split_ifs with h
    · simp only [List.length_append, List.length_replicate]
      omega
    · omega
  have hcell : ∀ rr cc, cellAt s' rr cc = cellAt s rr cc := by
    intro rr cc
    rw [hs']
    split_ifs with h
    · exact rowsPad_cellAt s _ rr cc
    · rfl
  set row := s'.getD (r - 1) [] with hrow
  set padded :=
    if row.length < c + 1 then row ++ List.replicate (c + 1 - row.length) ""
    else row with hpadded
  have hplen : c < padded.length := by
    rw [hpadded]
    split_ifs with h
    · simp only [List.length_append, List.length_replicate]
      omega
    · omega
  have hpad_getD : ∀ cc, padded.getD cc "" = row.getD cc "" := by
    intro cc
    rw [hpadded]
    split_ifs with h
    · exact getD_pad_right row _ cc
    · rfl
  by_cases hrr : r' = r
  · subst hrr
    have hrowsel : cellAt (s'.set (r' - 1) (padded.set c v)) r' c' =
        (padded.set c v).getD c' "" := by
      unfold cellAt
      rw [getD_set_eq s' (r' - 1) _ [] hlen]
    rw [hrowsel]
    by_cases hcc : c' = c
    · subst hcc
      rw [if_pos ⟨rfl, rfl⟩, getD_set_eq padded c' v "" hplen]
    · rw [if_neg (by tauto), getD_set_ne padded c c' v "" (fun h => hcc h.symm),
        hpad_getD, ← hcell r' c']
      rw [hrow]
      rfl
  · rw [if_neg (by tauto)]
    unfold cellAt
    rw [getD_set_ne s' (r - 1) (r' - 1) _ [] (by omega)]
    exact hcell r' c'

theorem setCell_length_of_le (s : Sheet) (r c : Nat) (v : String)
    (h : r ≤ s.length) : (setCell s r c v).length = s.length := by
  simp only [setCell, if_neg (by omega : ¬s.length < r), List.length_set]

theorem insertRowAt_row_le (s : Sheet) (k i : Nat) (hk : k ≤ s.length)
    (hi : i < k) : (insertRowAt s k).getD i [] = s.getD i [] := by
  unfold insertRowAt
  have hlen1 : (s.take k ++ [[]] : Sheet).length = k + 1 := by
    simp only [List.length_append, List.length_take, List.length_cons,
      List.length_nil]
    omega
  rw [List.getD_eq_getElem?_getD, List.getElem?_append,
    if_pos (by rw [hlen1]; omega),
    List.getElem?_append, if_pos (by simp only [List.length_take]; omega),
    List.getElem?_take, if_pos (by omega), ← List.getD_eq_getElem?_getD]

theorem insertRowAt_row_new (s : Sheet) (k : Nat) (hk : k ≤ s.length) :
    (insertRowAt s k).getD k [] = [] := by
  unfold insertRowAt
  have hlen1 : (s.take k ++ [[]] : Sheet).length = k + 1 := by
    simp only [List.length_append, List.length_take, List.length_cons,
      List.length_nil]
    omega
  rw [List.getD_eq_getElem?_getD, List.getElem?_append,
    if_pos (by rw [hlen1]; omega),
    List.getElem?_append, if_neg (by simp only [List.length_take]; omega)]
  have h2 : k - (s.take k).length = 0 := by
    simp only [List.length_take]
    omega
  rw [h2]
  rfl

theorem insertRowAt_row_shift (s : Sheet) (k i : Nat) (hk : k ≤ s.length)
    (hi : k ≤ i) : (insertRowAt s k).getD (i + 1) [] = s.getD i [] := by
  unfold insertRowAt
  have hlen1 : (s.take k ++ [[]] : Sheet).length = k + 1 := by
    simp only [List.length_append, List.length_take, List.length_cons,
      List.length_nil]
    omega
  rw [List.getD_eq_getElem?_getD, List.getElem?_append,
    if_neg (by rw [hlen1]; omega)]
  have h2 : i + 1 - (s.take k ++ [[]] : Sheet).length = i - k := by
    rw [hlen1]
    omega
  rw [h2, List.getElem?_drop]
  have h3 : k + (i - k) = i := by omega
  rw [h3, ← List.getD_eq_getElem?_getD]

theorem insertRowAt_cellAt_le (s : Sheet) (k r c : Nat) (hk : k ≤ s.length)
    (hr1 : 1 ≤ r) (hr : r ≤ k) :
    cellAt (insertRowAt s k) r c = cellAt s r c := by
  unfold cellAt
  rw [insertRowAt_row_le s k (r - 1) hk (by omega)]

theorem insertRowAt_cellAt_new (s : Sheet) (k c : Nat) (hk : k ≤ s.length) :
    cellAt (insertRowAt s k) (k + 1) c = "" := by
  unfold cellAt
  rw [show k + 1 - 1 = k by omega, insertRowAt_row_new s k hk]
  rfl

theorem insertRowAt_cellAt_shift (s : Sheet) (k r c : Nat) (hk : k ≤ s.length)
    (hr : k + 1 ≤ r) :
    cellAt (insertRowAt s k) (r + 1) c = cellAt s r c := by
  unfold cellAt
  rw [show r + 1 - 1 = (r - 1) + 1 by omega,
    insertRowAt_row_shift s k (r - 1) hk (by omega)]

theorem insertRowAt_length (s : Sheet) (k : Nat) (hk : k ≤ s.length) :
    (insertRowAt s k).length = s.length + 1 := by
  simp only [insertRowAt, List.length_append, List.length_take,
    List.length_drop, List.length_cons, List.length_nil]
  omega

/-- C6. For every row number `r ≥ 1`, `markTaskAsDone` writes the literal
"done" into exactly the status cell (column D) of row `r` and leaves every
other cell of the sheet unchanged; marking an already-done row again is
idempotent cell-for-cell, with no error and no row added (the row count is
unchanged whenever row `r` exists). -/
theorem markTaskAsDone_spec (s : Sheet) (r : Nat) (hr : 1 ≤ r) :
    cellAt (markTaskAsDone s r) r 3 = "done" ∧
    (∀ r' c', 1 ≤ r' → ¬(r' = r ∧ c' = 3) →
      cellAt (markTaskAsDone s r) r' c' = cellAt s r' c') ∧
    (∀ r' c', 1 ≤ r' →
      cellAt (markTaskAsDone (markTaskAsDone s r) r) r' c' =
        cellAt (markTaskAsDone s r) r' c') ∧
    (r ≤ s.length → (markTaskAsDone s r).length = s.length) := by
  refine ⟨?_, ?_, ?_, ?_⟩
  · rw [markTaskAsDone, setCell_cellAt s r 3 "done" r 3 hr hr, if_pos ⟨rfl, rfl⟩]
  · intro r' c' hr' hne
    rw [markTaskAsDone, setCell_cellAt s r 3 "done" r' c' hr hr', if_neg hne]
  · intro r' c' hr'
    rw [markTaskAsDone, markTaskAsDone,
      setCell_cellAt (setCell s r 3 "done") r 3 "done" r' c' hr hr']
    by_cases hne : r' = r ∧ c' = 3
    · rw [if_pos hne]
      obtain ⟨rfl, rfl⟩ := hne
      rw [setCell_cellAt s r' 3 "done" r' 3 hr hr', if_pos ⟨rfl, rfl⟩]
    · rw [if_neg hne]
  · intro hle
    rw [markTaskAsDone, setCell_length_of_le s r 3 "done" hle]

/-- C6 witness: marking row 2 of `demoSheet2` done writes the status cell,
leaves the purpose cell of row 2 and the cells of row 3 unchanged, and keeps
the row count. -/
theorem markTaskAsDone_spec_witness :
    cellAt (markTaskAsDone demoSheet2 2) 2 3 = "done" ∧
    cellAt (markTaskAsDone demoSheet2 2) 2 1 = "write spec" ∧
    cellAt (markTaskAsDone demoSheet2 2) 3 3 = "Done" ∧
    cellAt (markTaskAsDone (markTaskAsDone demoSheet2 2) 2) 2 3 = "done" ∧
    (markTaskAsDone demoSheet2 2).length = demoSheet2.length := by
  have h := markTaskAsDone_spec demoSheet2 2 (by omega)
  refine ⟨h.1, ?_, ?_, ?_, h.2.2.2 (by decide)⟩
  · rw [h.2.1 2 1 (by omega) (by simp)]
    decide
  · rw [h.2.1 3 3 (by omega) (by simp)]
    decide
  · rw [h.2.2.1 2 3 (by omega)]
    exact h.1

/-! Decimal printing / `parseInt` round-trip lemmas. -/

theorem digitChar_good (d : Nat) (hd : d < 10) :
    digitValue (digitChar d) = d ∧ (digitChar d).isWhitespace = false ∧
    digitChar d ≠ '-' ∧ digitChar d ≠ '+' ∧ digitChar d ≠ 'x' ∧
    digitChar d ≠ 'X' ∧ digitChar d ≠ ':' := by
  interval_cases d <;> decide

theorem toDecAux_append : ∀ (fuel n : Nat) (acc : List Char), n < fuel →
    toDecAux fuel n acc = toDecAux fuel n [] ++ acc := by
  intro fuel
  induction fuel with
  | zero => intro n acc h; omega
  | succ fuel ih =>
    intro n acc h
    rw [toDecAux, toDecAux]
    by_cases h10 : n < 10
    · rw [if_pos h10, if_pos h10]
      rfl
    · rw [if_neg h10, if_neg h10]
      have hdiv : n / 10 < fuel := by omega
      rw [ih (n / 10) (digitChar (n % 10) :: acc) hdiv,
        ih (n / 10) (digitChar (n % 10) :: []) hdiv]
      simp

theorem toDecAux_all_good : ∀ (fuel n : Nat), n < fuel →
    ∀ c ∈ toDecAux fuel n [], digitValue c < 10 ∧ c.isWhitespace = false ∧
      c ≠ '-' ∧ c ≠ '+' ∧ c ≠ 'x' ∧ c ≠ 'X' ∧ c ≠ ':' := by
  intro fuel
  induction fuel with
  | zero => intro n h; omega
  | succ fuel ih =>
    intro n h c hc
    rw [toDecAux] at hc
    by_cases h10 : n < 10
    · rw [if_pos h10] at hc
      have hcd : c = digitChar n := by simpa using hc
      subst hcd
      have hg := digitChar_good n h10
      exact ⟨by omega, hg.2⟩
    · rw [if_neg h10] at hc
      rw [toDecAux_append fuel (n / 10) _ (by omega)] at hc
      rcases List.mem_append.mp hc with hc | hc
      · exact ih (n / 10) (by omega) c hc
      · have hcd : c = digitChar (n % 10) := by simpa using hc
        subst hcd
        have h1 : n % 10 < 10 := Nat.mod_lt _ (by omega)
        have hg := digitChar_good (n % 10) h1
        exact ⟨by omega, hg.2⟩

theorem toDecAux_ne_nil : ∀ (fuel n : Nat), n < fuel →
    toDecAux fuel n [] ≠ [] := by
  intro fuel
  induction fuel with
  | zero => intro n h; omega
  | succ fuel _ =>
    intro n h
    rw [toDecAux]
    by_cases h10 : n < 10
    · rw [if_pos h10]
      exact List.cons_ne_nil _ _
    · rw [if_neg h10]
      rw [toDecAux_append fuel (n / 10) _ (by omega)]
      intro hcontra
      have := congrArg List.length hcontra
      simp at this

theorem toDecAux_val : ∀ (fuel n : Nat), n < fuel →
    (toDecAux fuel n []).foldl (fun a c => 10 * a + digitValue c) 0 = n := by
  intro fuel
  induction fuel with
  | zero => intro n h; omega
  | succ fuel ih =>
    intro n h
    rw [toDecAux]
    by_cases h10 : n < 10
    · rw [if_pos h10]
      show 10 * 0 + digitValue (digitChar n) = n
      rw [(digitChar_good n h10).1]
      omega
    · rw [if_neg h10]
      rw [toDecAux_append fuel (n / 10) _ (by omega)]
      rw [List.foldl_append]
      rw [ih (n / 10) (by omega)]
      show 10 * (n / 10) + digitValue (digitChar (n % 10)) = n
      rw [(digitChar_good (n % 10) (Nat.mod_lt _ (by omega))).1]
      omega

theorem takeWhile_all {α : Type} (p : α → Bool) : ∀ l : List α,
    (∀ c ∈ l, p c = true) → l.takeWhile p = l := by
  intro l
  induction l with
  | nil => intro _; rfl
  | cons c cs ih =>
    intro h
    rw [List.takeWhile_cons, if_pos (h c (by simp))]
    rw [ih (fun x hx => h x (by simp [hx]))]

theorem parseDigits_all (cs : List Char) (hne : cs ≠ [])
    (hall : ∀ c ∈ cs, digitValue c < 10) :
    parseDigits 10 cs =
      some (cs.foldl (fun a c => 10 * a + digitValue c) 0) := by
  unfold parseDigits
  rw [takeWhile_all _ cs (fun c hc => by
    simpa using hall c hc)]
  rw [if_neg (by simpa [List.isEmpty_iff] using hne)]

theorem parseUnsigned_digits (cs : List Char)
    (hall : ∀ c ∈ cs, digitValue c < 10 ∧ c ≠ 'x' ∧ c ≠ 'X') :
    parseUnsigned cs = parseDigits 10 cs := by
  match cs with
  | [] => rfl
  | [c] => rfl
  | c1 :: c2 :: rest =>
    rw [parseUnsigned]
    have h2 := hall c2 (by simp)
    have hx : (c2 == 'x') = false := by
      simp only [beq_eq_false_iff_ne, ne_eq]
      exact h2.2.1
    have hX : (c2 == 'X') = false := by
      simp only [beq_eq_false_iff_ne, ne_eq]
      exact h2.2.2
    rw [hx, hX]
    simp

theorem jsParseInt_natToDecimal (n : Nat) :
    jsParseInt (natToDecimal n) = some (n : Int) := by
  unfold jsParseInt natToDecimal
  show parseIntList (toDecAux (n + 1) n []) = some (n : Int)
  have hne : toDecAux (n + 1) n [] ≠ [] := toDecAux_ne_nil (n + 1) n (by omega)
  have hall := toDecAux_all_good (n + 1) n (by omega)
  obtain ⟨c, rest, hcons⟩ := List.exists_cons_of_ne_nil hne
  have hc := hall c (by rw [hcons]; simp)
  unfold parseIntList
  rw [hcons, List.dropWhile_cons, if_neg (by simp [hc.2.1])]
  rw [parseIntSigned]
  have hminus : (c == '-') = false := by
    simp only [beq_eq_false_iff_ne, ne_eq]
    exact hc.2.2.1
  have hplus : (c == '+') = false := by
    simp only [beq_eq_false_iff_ne, ne_eq]
    exact hc.2.2.2.1
  rw [hminus, hplus]
  simp only [Bool.false_eq_true, if_false]
  rw [← hcons]
  rw [parseUnsigned_digits _ (fun x hx =>
    ⟨(hall x hx).1, (hall x hx).2.2.2.2.1, (hall x hx).2.2.2.2.2.1⟩)]
  rw [parseDigits_all _ hne (fun x hx => (hall x hx).1)]
  rw [toDecAux_val (n + 1) n (by omega)]
  rfl

theorem natToDecimal_no_colon (n : Nat) : ':' ∉ (natToDecimal n).data := by
  intro hmem
  exact absurd rfl
    ((toDecAux_all_good (n + 1) n (by omega) ':' hmem).2.2.2.2.2.2)

theorem natToDecimal_ne_show_list (n : Nat) :
    natToDecimal n ≠ "show_list" := by
  intro h
  have h1 := jsParseInt_natToDecimal n
  rw [h] at h1
  have h2 : jsParseInt "show_list" = none := by decide
  rw [h2] at h1
  exact absurd h1 (by simp)

/-! Callback split lemmas. -/

theorem splitSep_no_sep (sep : Char) : ∀ l : List Char,
    sep ∉ l → splitSep sep l = [l] := by
  intro l
  induction l with
  | nil => intro _; rfl
  | cons c cs ih =>
    intro h
    rw [splitSep]
    have hcs : sep ∉ cs := fun hx => h (by simp [hx])
    have hc : (c == sep) = false := by
      simp only [beq_eq_false_iff_ne, ne_eq]
      intro hx
      exact h (by simp [hx])
    rw [hc]
    simp only [Bool.false_eq_true, if_false, ih hcs]
    rfl

theorem splitSep_append (sep : Char) : ∀ (a rest : List Char),
    sep ∉ a → splitSep sep (a ++ sep :: rest) = a :: splitSep sep rest := by
  intro a
  induction a with
  | nil =>
    intro rest _
    show splitSep sep (sep :: rest) = [] :: splitSep sep rest
    rw [splitSep, beq_self_eq_true, if_pos rfl]
  | cons c a' ih =>
    intro rest h
    have ha' : sep ∉ a' := fun hx => h (by simp [hx])
    have hc : (c == sep) = false := by
      simp only [beq_eq_false_iff_ne, ne_eq]
      intro hx
      exact h (by simp [hx])
    show splitSep sep (c :: (a' ++ sep :: rest)) = (c :: a') :: splitSep sep rest
    rw [splitSep, hc]
    simp only [Bool.false_eq_true, if_false, ih rest ha']
    rfl

theorem jsSplit_encode (u t : String) (hu : ':' ∉ u.data)
    (ht : ':' ∉ t.data) :
    jsSplit ':' ("mark_done:" ++ u ++ ":" ++ t) = ["mark_done", u, t] := by
  unfold jsSplit
  have hdata : ("mark_done:" ++ u ++ ":" ++ t).data =
      "mark_done".data ++ ':' :: (u.data ++ ':' :: t.data) := by
    simp [String.data_append, List.append_assoc]
  rw [hdata]
  rw [splitSep_append ':' _ _ (by decide)]
  rw [splitSep_append ':' _ _ hu]
  rw [splitSep_no_sep ':' _ ht]
  rfl

theorem isPrefixOf_self_append (a b : List Char) :
    a.isPrefixOf (a ++ b) = true := by
  simp [List.isPrefixOf_iff_prefix]

theorem jsSplit_of_data (dataS u t : String)
    (hd : dataS.data = "mark_done".data ++ ':' :: (u.data ++ ':' :: t.data))
    (hu : ':' ∉ u.data) (ht : ':' ∉ t.data) :
    jsSplit ':' dataS = ["mark_done", u, t] := by
  unfold jsSplit
  rw [hd]
  rw [splitSep_append ':' _ _ (by decide)]
  rw [splitSep_append ':' _ _ hu]
  rw [splitSep_no_sep ':' _ ht]
  rfl

theorem decode_of_data (dataS u t : String)
    (hd : dataS.data = "mark_done".data ++ ':' :: (u.data ++ ':' :: t.data))
    (hu : ':' ∉ u.data) (ht : ':' ∉ t.data) :
    decodeCallback dataS =
      (if t = "show_list" then some (.showList u)
       else if (jsParseInt t).isSome = true then
         some (.markDone u ((jsParseInt t).getD 0))
       else none) := by
  have hd2 : dataS.data = "mark_done:".data ++ (u.data ++ ':' :: t.data) := by
    rw [hd, show ("mark_done:" : String).data = "mark_done".data ++ [':']
      by decide]
    simp
  unfold decodeCallback
  rw [hd2, isPrefixOf_self_append, if_pos rfl]
  show (if (jsSplit ':' dataS).length = 3 ∧
        (jsSplit ':' dataS).getD 2 "" = "show_list" then
      some (CallbackAction.showList ((jsSplit ':' dataS).getD 1 ""))
    else if (jsSplit ':' dataS).length = 3 ∧
        (jsParseInt ((jsSplit ':' dataS).getD 2 "")).isSome = true then
      some (CallbackAction.markDone ((jsSplit ':' dataS).getD 1 "")
        ((jsParseInt ((jsSplit ':' dataS).getD 2 "")).getD 0))
    else none) = _
  rw [jsSplit_of_data dataS u t hd hu ht]
  by_cases hsl : t = "show_list"
  · rw [if_pos ⟨rfl, hsl⟩, if_pos hsl]
    rfl
  · rw [if_neg (fun hand => hsl hand.2), if_neg hsl]
    by_cases hp : (jsParseInt t).isSome = true
    · rw [if_pos ⟨rfl, hp⟩, if_pos hp]
      rfl
    · rw [if_neg (fun hand => hp hand.2), if_neg hp]

/-- C7. The callback payload `mark_done:<identity>:<token>` round-trips
exactly through the encoder (string interpolation) and the decoder (split on
`:`): for every identity matching `\w+` (non-empty, word characters only)
and every row number `n`, encoding then decoding yields exactly
`(identity, n)` in the mark-done branch, and the token `show_list` decodes
into the list-rendering branch, never as a row number. -/
theorem callback_roundtrip (u : String) (n : Nat)
    (hw : u.data ≠ [] ∧ ∀ c ∈ u.data, (c.isAlphanum || c == '_') = true) :
    decodeCallback (encodeMarkDone u n) =
      some (.markDone u (n : Int)) ∧
    decodeCallback (encodeShowList u) = some (.showList u) := by
  have hu : ':' ∉ u.data := by
    intro hmem
    exact absurd (hw.2 ':' hmem) (by decide)
  constructor
  · have hdataM : (encodeMarkDone u n).data =
        "mark_done".data ++ ':' :: (u.data ++ ':' :: (natToDecimal n).data) := by
      simp [encodeMarkDone, String.data_append, List.append_assoc]
    rw [decode_of_data (encodeMarkDone u n) u (natToDecimal n) hdataM hu
      (natToDecimal_no_colon n)]
    rw [if_neg (natToDecimal_ne_show_list n)]
    rw [if_pos (by rw [jsParseInt_natToDecimal n]; rfl)]
    rw [jsParseInt_natToDecimal n]
    rfl
  · have hdataS : (encodeShowList u).data =
        "mark_done".data ++ ':' ::
          (u.data ++ ':' :: ("show_list" : String).data) := by
      simp [encodeShowList, String.data_append, List.append_assoc]
    rw [decode_of_data (encodeShowList u) u "show_list" hdataS hu (by decide)]
    rw [if_pos rfl]

/-- C7 witness: `identity = "bob"`, `token = 42` decodes back to
`("bob", 42)`, and `show_list` decodes to the list-rendering branch. -/
theorem callback_roundtrip_witness :
    decodeCallback (encodeMarkDone "bob" 42) =
      some (.markDone "bob" (42 : Int)) ∧
    decodeCallback (encodeShowList "bob") = some (.showList "bob") :=
  callback_roundtrip "bob" 42 ⟨by decide, by decide⟩

/-- C10. In the callback-query decoder, a three-part payload
`mark_done:<identity>:<token>` with `token ≠ "show_list"` is committed as a
mark-done whenever `parseInt(token)` is not `NaN` — so a token with a
leading decimal prefix such as `"42abc"` marks row 42 — and every payload
matching neither branch (wrong prefix, wrong number of `:` fields, or a
token that is neither `show_list` nor integer-prefixed) is silently ignored
(`none`: no sheet write, no error, no reply). -/
theorem decodeCallback_fallthrough :
    decodeCallback "mark_done:bob:42abc" =
      some (.markDone "bob" (42 : Int)) ∧
    (∀ data : String, "mark_done:".data.isPrefixOf data.data = false →
      decodeCallback data = none) ∧
    (∀ data : String, (jsSplit ':' data).length ≠ 3 →
      decodeCallback data = none) ∧
    (∀ data : String, (jsSplit ':' data).getD 2 "" ≠ "show_list" →
      jsParseInt ((jsSplit ':' data).getD 2 "") = none →
      decodeCallback data = none) ∧
    (∀ (data : String) (v : Int),
      "mark_done:".data.isPrefixOf data.data = true →
      (jsSplit ':' data).length = 3 →
      (jsSplit ':' data).getD 2 "" ≠ "show_list" →
      jsParseInt ((jsSplit ':' data).getD 2 "") = some v →
      decodeCallback data =
        some (.markDone ((jsSplit ':' data).getD 1 "") v)) := by
  refine ⟨by decide, ?_, ?_, ?_, ?_⟩
  · intro data hpre
    unfold decodeCallback
    rw [hpre]
    simp
  · intro data hlen
    unfold decodeCallback
    cases hb : "mark_done:".data.isPrefixOf data.data with
    | false => simp
    | true =>
      rw [if_pos rfl]
      show (if (jsSplit ':' data).length = 3 ∧
            (jsSplit ':' data).getD 2 "" = "show_list" then
          some (CallbackAction.showList ((jsSplit ':' data).getD 1 ""))
        else if (jsSplit ':' data).length = 3 ∧
            (jsParseInt ((jsSplit ':' data).getD 2 "")).isSome = true then
          some (CallbackAction.markDone ((jsSplit ':' data).getD 1 "")
            ((jsParseInt ((jsSplit ':' data).getD 2 "")).getD 0))
        else none) = none
      rw [if_neg (fun hand => hlen hand.1), if_neg (fun hand => hlen hand.1)]
  · intro data hsl hparse
    unfold decodeCallback
    cases hb : "mark_done:".data.isPrefixOf data.data with
    | false => simp
    | true =>
      rw [if_pos rfl]
      show (if (jsSplit ':' data).length = 3 ∧
            (jsSplit ':' data).getD 2 "" = "show_list" then
          some (CallbackAction.showList ((jsSplit ':' data).getD 1 ""))
        else if (jsSplit ':' data).length = 3 ∧
            (jsParseInt ((jsSplit ':' data).getD 2 "")).isSome = true then
          some (CallbackAction.markDone ((jsSplit ':' data).getD 1 "")
            ((jsParseInt ((jsSplit ':' data).getD 2 "")).getD 0))
        else none) = none
      rw [if_neg (fun hand => hsl hand.2)]
      rw [if_neg (fun hand => by
        rw [hparse] at hand
        exact absurd hand.2 (by simp))]
  · intro data v hb hlen hsl hparse
    unfold decodeCallback
    rw [hb, if_pos rfl]
    show (if (jsSplit ':' data).length = 3 ∧
          (jsSplit ':' data).getD 2 "" = "show_list" then
        some (CallbackAction.showList ((jsSplit ':' data).getD 1 ""))
      else if (jsSplit ':' data).length = 3 ∧
          (jsParseInt ((jsSplit ':' data).getD 2 "")).isSome = true then
        some (CallbackAction.markDone ((jsSplit ':' data).getD 1 "")
          ((jsParseInt ((jsSplit ':' data).getD 2 "")).getD 0))
      else none) =
      some (CallbackAction.markDone ((jsSplit ':' data).getD 1 "") v)
    rw [if_neg (fun hand => hsl hand.2)]
    rw [if_pos ⟨hlen, by rw [hparse]; rfl⟩]
    rw [hparse]
    rfl

/-- C10 witness: a wrong prefix, a four-field payload and a non-numeric
token are all silently ignored. -/
theorem decodeCallback_fallthrough_witness :
    decodeCallback "hello" = none ∧
    decodeCallback "mark_done:a:b:c" = none ∧
    decodeCallback "mark_done:bob:xyz" = none :=
  ⟨decodeCallback_fallthrough.2.1 "hello" (by decide),
   decodeCallback_fallthrough.2.2.1 "mark_done:a:b:c" (by decide),
   decodeCallback_fallthrough.2.2.2.1 "mark_done:bob:xyz" (by decide)
     (by decide)⟩

/-- C8 counterexample: the token `"HESONG07"` is not an exact case-sensitive
identity, is no alias, and the explicit-token paths have no self-assign step,
so under the claimed resolution order it would fail — yet the code resolves
it (it lowercases the token before the lookups).  Conversely the self-assign
path is claimed case-insensitive but `resolveSelf "HESONG07"` fails while
`resolveSelf "hesong07"` succeeds (exact lookup, no lowercasing). -/
theorem resolveToken_counterexample :
    resolveToken "HESONG07" = .ok "hesong07" ∧
    resolveSelf "HESONG07" = none ∧
    resolveSelf "hesong07" = some "hesong07" :=
  ⟨rfl, rfl, rfl⟩

/-- C8 (amended). The explicit-token paths (`/done`, `/list`) lowercase the
token and then try the alias table first, then the identity registry — both
lookups therefore case-insensitive given the lowercase registry keys — and
an unknown token fails with a message enumerating the valid identities and
aliases; the self-assign paths look the caller's chat handle up in the
registry exactly (case-sensitively), with no alias step. -/
theorem resolve_spec :
    (∀ token target : String,
      lookupAssoc SHORTCUT_TO_USERNAME (jsToLower token) = some target →
      resolveToken token = .ok target) ∧
    (∀ token : String,
      lookupAssoc SHORTCUT_TO_USERNAME (jsToLower token) = none →
      (lookupRange USERNAME_TO_SEARCH_RANGE (jsToLower token)).isSome = true →
      resolveToken token = .ok (jsToLower token)) ∧
    (∀ token : String,
      lookupAssoc SHORTCUT_TO_USERNAME (jsToLower token) = none →
      (lookupRange USERNAME_TO_SEARCH_RANGE (jsToLower token)).isSome = false →
      resolveToken token = .error ("❌ Unknown username: @" ++ jsToLower token ++
        "\nSupported: @hesong07, @boewu28, or shortcuts: he, aaron")) ∧
    (∀ handle : String,
      resolveSelf handle =
        if (lookupRange USERNAME_TO_SEARCH_RANGE handle).isSome then
          some handle
        else none) := by
  refine ⟨?_, ?_, ?_, fun handle => rfl⟩
  · intro token target hsc
    simp [resolveToken, hsc]
  · intro token hsc hid
    simp [resolveToken, hsc, hid]
  · intro token hsc hid
    simp [resolveToken, hsc, hid]

/-- C8 witness: an alias resolves to its identity, an upper-case identity
token resolves case-insensitively, an unknown token produces the enumerated
failure message, and a registered handle self-resolves. -/
theorem resolve_spec_witness :
    resolveToken "he" = .ok "hesong07" ∧
    resolveToken "BOEWU28" = .ok "boewu28" ∧
    resolveToken "xyz" = .error ("❌ Unknown username: @xyz" ++
      "\nSupported: @hesong07, @boewu28, or shortcuts: he, aaron") ∧
    resolveSelf "boewu28" = some "boewu28" := by
  refine ⟨resolve_spec.1 "he" "hesong07" (by decide),
    resolve_spec.2.1 "BOEWU28" (by decide) (by decide), ?_, ?_⟩
  · have h := resolve_spec.2.2.1 "xyz" (by decide) (by decide)
    rw [h]
    rfl
  · rw [resolve_spec.2.2.2 "boewu28"]
    decide

/-! Insertion lemmas for the ordering claim. -/

theorem addTodoToTable_ok_inv (cfg : Config) (s sA : Sheet) (u text : String)
    (h : Nat) (hh : findHeaderRow cfg s u = .ok h)
    (hA : addTodoToTable cfg s u text = .ok sA) :
    sA = setCell (setCell (insertRowAt s h) (h + 1) 1 (parseTodoText text).1)
      (h + 1) 2 (parseTodoText text).2 := by
  unfold addTodoToTable at hA
  simp only [hh, Nat.add_sub_cancel] at hA
  exact (Except.ok.inj hA).symm

theorem findHeaderRow_insert_write (cfg : Config) (s : Sheet) (u : String)
    (sr : SearchRange) (h : Nat) (p g : String)
    (hlk : lookupRange cfg u = some sr) (hpos : 1 ≤ sr.start)
    (hh : findHeaderRow cfg s u = .ok h) :
    findHeaderRow cfg
      (setCell (setCell (insertRowAt s h) (h + 1) 1 p) (h + 1) 2 g) u =
      .ok h := by
  obtain ⟨hsh, hsth, hm, hbefore⟩ := findHeaderRow_ok_inv cfg s u sr h hlk hh
  have hhlen : h ≤ s.length := headerCellsMatch_le_length s h hm
  have hcells : ∀ r c, 1 ≤ r → r ≤ h →
      cellAt (setCell (setCell (insertRowAt s h) (h + 1) 1 p) (h + 1) 2 g) r c
        = cellAt s r c := by
    intro r c hr1 hrh
    rw [setCell_cellAt _ (h + 1) 2 g r c (by omega) hr1,
      if_neg (fun hand => by obtain ⟨h1, _⟩ := hand; omega)]
    rw [setCell_cellAt _ (h + 1) 1 p r c (by omega) hr1,
      if_neg (fun hand => by obtain ⟨h1, _⟩ := hand; omega)]
    exact insertRowAt_cellAt_le s h r c hhlen hr1 hrh
  have hmatch : ∀ r, 1 ≤ r → r ≤ h →
      headerCellsMatch
        (setCell (setCell (insertRowAt s h) (h + 1) 1 p) (h + 1) 2 g) r =
      headerCellsMatch s r := by
    intro r hr1 hrh
    unfold headerCellsMatch
    rw [hcells r 1 hr1 hrh, hcells r 2 hr1 hrh, hcells r 3 hr1 hrh]
  have hres := findHeaderRow_ok cfg
    (setCell (setCell (insertRowAt s h) (h + 1) 1 p) (h + 1) 2 g) u sr hlk
    (h - sr.start) (by omega)
    (by rw [show sr.start + (h - sr.start) = h by omega,
        hmatch h (by omega) (by omega)]
        exact hm)
    (fun j hj => by
      rw [hmatch (sr.start + j) (by omega) (by omega)]
      exact hbefore (sr.start + j) (by omega) (by omega))
  rwa [show sr.start + (h - sr.start) = h by omega] at hres

/-- C5 (amended).  After inserting `tA` then `tB` for the same identity
(header row `h`, search range starting at row 1 or below it), each insert
writes into row `h + 1` and shifts the existing rows down, so row `h + 1`
holds `tB`'s item and row `h + 2` holds `tA`'s item; provided the recomputed
table end row reaches `h + 2` and both parsed purposes are non-blank after
trimming, a subsequent list returns `tB`'s item (rowNumber `h + 1`) first
and `tA`'s item (rowNumber `h + 2`) second, before everything else.  (As
stated the claim is false: the end row is recomputed from the shifted sheet
and can cut `tA`'s row out of the read range — see the counterexample.) -/
theorem insert_insert_list_order (cfg : Config) (s sA sB : Sheet)
    (u tA tB : String) (sr : SearchRange) (h : Nat)
    (hlk : lookupRange cfg u = some sr) (hpos : 1 ≤ sr.start)
    (hh : findHeaderRow cfg s u = .ok h)
    (hA : addTodoToTable cfg s u tA = .ok sA)
    (hB : addTodoToTable cfg sA u tB = .ok sB)
    (hend : (h : Int) + 2 ≤ getTableEndRow cfg sB u h)
    (hpB : jsTrim (parseTodoText tB).1 ≠ "")
    (hpA : jsTrim (parseTodoText tA).1 ≠ "") :
    ∃ rest, getTodosWithRowNumbers cfg sB u =
      .ok (⟨jsTrim (parseTodoText tB).1, jsTrim (parseTodoText tB).2, h + 1⟩ ::
        ⟨jsTrim (parseTodoText tA).1, jsTrim (parseTodoText tA).2, h + 2⟩ ::
        rest) := by
  obtain ⟨hsh, hsth, hm, _⟩ := findHeaderRow_ok_inv cfg s u sr h hlk hh
  have hhlen : h ≤ s.length := headerCellsMatch_le_length s h hm
  have hAeq := addTodoToTable_ok_inv cfg s sA u tA h hh hA
  subst hAeq
  have hfA := findHeaderRow_insert_write cfg s u sr h
    (parseTodoText tA).1 (parseTodoText tA).2 hlk hpos hh
  have hBeq := addTodoToTable_ok_inv cfg _ sB u tB h hfA hB
  subst hBeq
  have hfB := findHeaderRow_insert_write cfg _ u sr h
    (parseTodoText tB).1 (parseTodoText tB).2 hlk hpos hfA
  -- length bookkeeping for the first insert-write
  have hilen : (insertRowAt s h).length = s.length + 1 :=
    insertRowAt_length s h hhlen
  have hl1 : (setCell (insertRowAt s h) (h + 1) 1
      (parseTodoText tA).1).length = s.length + 1 := by
    rw [setCell_length_of_le _ _ _ _ (by rw [hilen]; omega), hilen]
  have hXlen : (setCell (setCell (insertRowAt s h) (h + 1) 1
      (parseTodoText tA).1) (h + 1) 2 (parseTodoText tA).2).length =
      s.length + 1 := by
    rw [setCell_length_of_le _ _ _ _ (by rw [hl1]; omega), hl1]
  have hXh : h ≤ (setCell (setCell (insertRowAt s h) (h + 1) 1
      (parseTodoText tA).1) (h + 1) 2 (parseTodoText tA).2).length := by
    omega
  -- cells of the first written row (in the intermediate sheet)
  have hX1 : cellAt (setCell (setCell (insertRowAt s h) (h + 1) 1
      (parseTodoText tA).1) (h + 1) 2 (parseTodoText tA).2) (h + 1) 1 =
      (parseTodoText tA).1 := by
    rw [setCell_cellAt _ (h + 1) 2 _ (h + 1) 1 (by omega) (by omega),
      if_neg (fun hand => by obtain ⟨_, h2⟩ := hand; omega)]
    rw [setCell_cellAt _ (h + 1) 1 _ (h + 1) 1 (by omega) (by omega),
      if_pos ⟨rfl, rfl⟩]
  have hX2 : cellAt (setCell (setCell (insertRowAt s h) (h + 1) 1
      (parseTodoText tA).1) (h + 1) 2 (parseTodoText tA).2) (h + 1) 2 =
      (parseTodoText tA).2 := by
    rw [setCell_cellAt _ (h + 1) 2 _ (h + 1) 2 (by omega) (by omega),
      if_pos ⟨rfl, rfl⟩]
  have hX3 : cellAt (setCell (setCell (insertRowAt s h) (h + 1) 1
      (parseTodoText tA).1) (h + 1) 2 (parseTodoText tA).2) (h + 1) 3 = "" := by
    rw [setCell_cellAt _ (h + 1) 2 _ (h + 1) 3 (by omega) (by omega),
      if_neg (fun hand => by obtain ⟨_, h2⟩ := hand; omega)]
    rw [setCell_cellAt _ (h + 1) 1 _ (h + 1) 3 (by omega) (by omega),
      if_neg (fun hand => by obtain ⟨_, h2⟩ := hand; omega)]
    exact insertRowAt_cellAt_new s h 3 hhlen
  -- cells of the final sheet, rows h+1 (tB) and h+2 (tA)
  have hB1 : ∀ c v, c = 1 → v = (parseTodoText tB).1 →
      cellAt (setCell (setCell (insertRowAt (setCell (setCell (insertRowAt s h)
        (h + 1) 1 (parseTodoText tA).1) (h + 1) 2 (parseTodoText tA).2) h)
        (h + 1) 1 (parseTodoText tB).1) (h + 1) 2 (parseTodoText tB).2)
        (h + 1) c = v := by
    intro c v hc hv
    subst hc hv
    rw [setCell_cellAt _ (h + 1) 2 _ (h + 1) 1 (by omega) (by omega),
      if_neg (fun hand => by obtain ⟨_, h2⟩ := hand; omega)]
    rw [setCell_cellAt _ (h + 1) 1 _ (h + 1) 1 (by omega) (by omega),
      if_pos ⟨rfl, rfl⟩]
  have hB2 : cellAt (setCell (setCell (insertRowAt (setCell (setCell
      (insertRowAt s h) (h + 1) 1 (parseTodoText tA).1) (h + 1) 2
      (parseTodoText tA).2) h) (h + 1) 1 (parseTodoText tB).1) (h + 1) 2
      (parseTodoText tB).2) (h + 1) 2 = (parseTodoText tB).2 := by
    rw [setCell_cellAt _ (h + 1) 2 _ (h + 1) 2 (by omega) (by omega),
      if_pos ⟨rfl, rfl⟩]
  have hB3 : cellAt (setCell (setCell (insertRowAt (setCell (setCell
      (insertRowAt s h) (h + 1) 1 (parseTodoText tA).1) (h + 1) 2
      (parseTodoText tA).2) h) (h + 1) 1 (parseTodoText tB).1) (h + 1) 2
      (parseTodoText tB).2) (h + 1) 3 = "" := by
    rw [setCell_cellAt _ (h + 1) 2 _ (h + 1) 3 (by omega) (by omega),
      if_neg (fun hand => by obtain ⟨_, h2⟩ := hand; omega)]
    rw [setCell_cellAt _ (h + 1) 1 _ (h + 1) 3 (by omega) (by omega),
      if_neg (fun hand => by obtain ⟨_, h2⟩ := hand; omega)]
    exact insertRowAt_cellAt_new _ h 3 hXh
  have hshift : ∀ c : Nat, cellAt (setCell (setCell (insertRowAt (setCell
      (setCell (insertRowAt s h) (h + 1) 1 (parseTodoText tA).1) (h + 1) 2
      (parseTodoText tA).2) h) (h + 1) 1 (parseTodoText tB).1) (h + 1) 2
      (parseTodoText tB).2) (h + 2) c =
      cellAt (setCell (setCell (insertRowAt s h) (h + 1) 1
        (parseTodoText tA).1) (h + 1) 2 (parseTodoText tA).2) (h + 1) c := by
    intro c
    rw [setCell_cellAt _ (h + 1) 2 _ (h + 2) c (by omega) (by omega),
      if_neg (fun hand => by obtain ⟨h1, _⟩ := hand; omega)]
    rw [setCell_cellAt _ (h + 1) 1 _ (h + 2) c (by omega) (by omega),
      if_neg (fun hand => by obtain ⟨h1, _⟩ := hand; omega)]
    rw [show h + 2 = (h + 1) + 1 by omega]
    exact insertRowAt_cellAt_shift _ h (h + 1) c hXh (by omega)
  -- pending checks
  have hpend1 : pendingRow (setCell (setCell (insertRowAt (setCell (setCell
      (insertRowAt s h) (h + 1) 1 (parseTodoText tA).1) (h + 1) 2
      (parseTodoText tA).2) h) (h + 1) 1 (parseTodoText tB).1) (h + 1) 2
      (parseTodoText tB).2) (h + 1) = true := by
    unfold pendingRow
    rw [hB1 1 (parseTodoText tB).1 rfl rfl, hB3]
    simp only [show jsToLower (jsTrim "") = "" from rfl]
    simp [hpB]
  have hpend2 : pendingRow (setCell (setCell (insertRowAt (setCell (setCell
      (insertRowAt s h) (h + 1) 1 (parseTodoText tA).1) (h + 1) 2
      (parseTodoText tA).2) h) (h + 1) 1 (parseTodoText tB).1) (h + 1) 2
      (parseTodoText tB).2) (h + 2) = true := by
    unfold pendingRow
    rw [hshift 1, hshift 3, hX1, hX3]
    simp only [show jsToLower (jsTrim "") = "" from rfl]
    simp [hpA]
  rw [getTodos_eq cfg _ u h hfB]
  obtain ⟨m, hm2⟩ : ∃ m, (getTableEndRow cfg (setCell (setCell (insertRowAt
      (setCell (setCell (insertRowAt s h) (h + 1) 1 (parseTodoText tA).1)
      (h + 1) 2 (parseTodoText tA).2) h) (h + 1) 1 (parseTodoText tB).1)
      (h + 1) 2 (parseTodoText tB).2) u h + 1 -
      ((h + 1 : Nat) : Int)).toNat = m + 2 := by
    refine ⟨(getTableEndRow cfg (setCell (setCell (insertRowAt
      (setCell (setCell (insertRowAt s h) (h + 1) 1 (parseTodoText tA).1)
      (h + 1) 2 (parseTodoText tA).2) h) (h + 1) 1 (parseTodoText tB).1)
      (h + 1) 2 (parseTodoText tB).2) u h + 1 -
      ((h + 1 : Nat) : Int)).toNat - 2, ?_⟩
    omega
  rw [hm2]
  refine ⟨specTodos (setCell (setCell (insertRowAt (setCell (setCell
    (insertRowAt s h) (h + 1) 1 (parseTodoText tA).1) (h + 1) 2
    (parseTodoText tA).2) h) (h + 1) 1 (parseTodoText tB).1) (h + 1) 2
    (parseTodoText tB).2) (h + 3) m, ?_⟩
  rw [specTodos, hpend1]
  rw [hB1 1 (parseTodoText tB).1 rfl rfl, hB2]
  rw [show h + 1 + 1 = h + 2 by omega]
  rw [specTodos, hpend2]
  rw [hshift 1, hshift 2, hX1, hX2]
  rw [show h + 2 + 1 = h + 3 by omega]
  simp

/-- C5 counterexample: with the deployed registry, put hesong07's header in
row 14 and boewu28's header directly below it in row 15.  Inserting "taskA"
then "taskB" shifts boewu28's header to row 17, so the recomputed end row is
`17 - 2 = 15` and the subsequent list returns only `taskB` — `taskA` is not
returned at all, so the list does not return B before A. -/
theorem insert_insert_counterexample :
    addTodoToTable USERNAME_TO_SEARCH_RANGE cxSheet "hesong07" "taskA" =
      .ok cxS1 ∧
    addTodoToTable USERNAME_TO_SEARCH_RANGE cxS1 "hesong07" "taskB" =
      .ok cxS2 ∧
    getTodosWithRowNumbers USERNAME_TO_SEARCH_RANGE cxS2 "hesong07" =
      .ok [⟨"taskB", "", 15⟩] ∧
    ([(⟨"taskB", "", 15⟩ : TodoItem)].filter
      (fun t => t.purpose == "taskA")) = [] :=
  ⟨rfl, rfl, rfl, rfl⟩

/-- C5 witness: on `c5demo` (header row 1, no other table) the two inserts
produce `c5s2` and the list starts with taskB at row 2, then taskA at
row 3. -/
theorem insert_insert_list_order_witness :
    ∃ rest, getTodosWithRowNumbers USERNAME_TO_SEARCH_RANGE c5s2 "hesong07" =
      .ok (⟨jsTrim (parseTodoText "taskB").1, jsTrim (parseTodoText "taskB").2,
          1 + 1⟩ ::
        ⟨jsTrim (parseTodoText "taskA").1, jsTrim (parseTodoText "taskA").2,
          1 + 2⟩ :: rest) :=
  insert_insert_list_order USERNAME_TO_SEARCH_RANGE c5demo c5s1 c5s2
    "hesong07" "taskA" "taskB" ⟨1, 20⟩ 1 (by decide) (by decide) rfl rfl rfl
    (by decide) (by decide) (by decide)

end TodoBot
